import Mathlib

/-!
Verification of the sift-agent ingestion pipeline core.

This file gives a shallow embedding of the agent's components and settles
the specified properties against them:

* the File-Log store (package db: GetFileRecord, UpdateFileStatus,
  IncrementError, MarkCorrupt, ResetHistory) as an association list keyed
  by absolute path, with the exact SQL upsert/update semantics;
* the uploader (package api: UploadFile) as a deterministic function of an
  environment supplying the open/hash outcomes, the per-attempt HTTP
  results, and the cancellation signal; its observable behaviour is an
  event trace (POSTs, back-off waits, the success/error callback);
* the worker (package core: handleUpload, moveToDone) as a function from
  the File-Log and a filesystem/clock environment to a list of effects;
* the legacy uploader variant (package cmd: uploadFile) including its
  integrity-handshake block;
* the orchestrator of core.WatchRemote as a labelled transition system
  over its pending/active maps, armed timers, control-message queue,
  worker pool and semaphore.
-/

namespace Sift

/-! ## File-Log store (package db) -/

def StatusPending : String := "PENDING"

def StatusUploaded : String := "UPLOADED"

def StatusVerified : String := "VERIFIED"

def StatusCorrupt : String := "CORRUPT"

def StatusFailed : String := "FAILED"

/-- One row of the file_log table.  lastAttemptAt models the opaque
time.Now() timestamp written by every mutation. -/
structure FileRecord where
  fileHash : String
  modTime : Int
  fileSize : Int
  status : String
  lastAttemptAt : Nat
  tenantId : Option String
  errorCount : Nat
deriving Repr, DecidableEq

/-- The file_log table: file_path is the primary key, so an association
list with at most one entry per key. -/
abbrev FileLog := List (String × FileRecord)

/-- db.GetFileRecord: SELECT status, mod_time, file_hash, error_count;
returns the empty tuple when the row is absent. -/
def GetFileRecord (db : FileLog) (path : String) : String × Int × String × Nat :=
  match db.lookup path with
  | none => ("", 0, "", 0)
  | some r => (r.status, r.modTime, r.fileHash, r.errorCount)

/-- db.UpdateFileStatus: INSERT ... ON CONFLICT(file_path) DO UPDATE SET
status/file_hash/mod_time/file_size/last_attempt_at, error_count = 0.
tenant_id is not in the column list, so it is untouched on conflict and
NULL on insert. -/
def UpdateFileStatus (db : FileLog) (path status hash : String)
    (modTime size : Int) (now : Nat) : FileLog :=
  match db with
  | [] => [(path, { fileHash := hash, modTime := modTime, fileSize := size,
                    status := status, lastAttemptAt := now, tenantId := none,
                    errorCount := 0 })]
  | (p, r) :: rest =>
    if p = path then
      (p, { r with status := status, fileHash := hash, modTime := modTime,
                   fileSize := size, lastAttemptAt := now, errorCount := 0 }) :: rest
    else
      (p, r) :: UpdateFileStatus rest path status hash modTime size now

/-- db.IncrementError: UPDATE file_log SET error_count = error_count + 1,
last_attempt_at = now WHERE file_path = path.  A no-op when no row
matches. -/
def IncrementError (db : FileLog) (path : String) (now : Nat) : FileLog :=
  match db with
  | [] => []
  | (p, r) :: rest =>
    if p = path then
      (p, { r with errorCount := r.errorCount + 1, lastAttemptAt := now }) ::
        IncrementError rest path now
    else (p, r) :: IncrementError rest path now

/-- db.MarkCorrupt: UPDATE file_log SET status = CORRUPT,
last_attempt_at = now WHERE file_path = path.  A no-op when no row
matches. -/
def MarkCorrupt (db : FileLog) (path : String) (now : Nat) : FileLog :=
  match db with
  | [] => []
  | (p, r) :: rest =>
    if p = path then
      (p, { r with status := StatusCorrupt, lastAttemptAt := now }) ::
        MarkCorrupt rest path now
    else (p, r) :: MarkCorrupt rest path now

/-- db.ResetHistory: DELETE the one row, or all rows when the argument is
empty. -/
def ResetHistory (db : FileLog) (targetPath : String) : FileLog :=
  if targetPath = "" then [] else db.filter fun pr => !(pr.1 == targetPath)

/-- IncrementError iterated n times on the same path, as in n consecutive
failed upload cycles. -/
def IncrementErrorN (db : FileLog) (path : String) (now : Nat) : Nat → FileLog
  | 0 => db
  | n + 1 => IncrementError (IncrementErrorN db path now n) path now

/-! ### Lookup lemmas for the store -/

theorem lookup_UpdateFileStatus_self (db : FileLog) (path status hash : String)
    (modTime size : Int) (now : Nat) :
    ∃ tid, (UpdateFileStatus db path status hash modTime size now).lookup path =
      some { fileHash := hash, modTime := modTime, fileSize := size,
             status := status, lastAttemptAt := now, tenantId := tid,
             errorCount := 0 } := by
  induction db with
  | nil => exact ⟨none, by simp [UpdateFileStatus, List.lookup]⟩
  | cons pr rest ih =>
    obtain ⟨p, r⟩ := pr
    by_cases h : p = path
    · subst h
      exact ⟨r.tenantId, by simp [UpdateFileStatus, List.lookup]⟩
    · obtain ⟨tid, htid⟩ := ih
      refine ⟨tid, ?_⟩
      simp only [UpdateFileStatus, if_neg h, List.lookup]
      have hb : (path == p) = false := by
        simp [beq_iff_eq]
        exact fun hc => h hc.symm
      simp [hb, htid]

theorem lookup_IncrementError_self (db : FileLog) (path : String) (now : Nat)
    (r : FileRecord) (h : db.lookup path = some r) :
    (IncrementError db path now).lookup path =
      some { r with errorCount := r.errorCount + 1, lastAttemptAt := now } := by
  induction db with
  | nil => simp [List.lookup] at h
  | cons pr rest ih =>
    obtain ⟨p, q⟩ := pr
    by_cases hp : p = path
    · subst hp
      simp only [List.lookup, beq_self_eq_true, Option.some.injEq] at h
      simp [IncrementError, List.lookup, h]
    · have hb : (path == p) = false := beq_eq_false_iff_ne.mpr (Ne.symm hp)
      simp only [List.lookup, hb] at h
      simp only [IncrementError, if_neg hp, List.lookup, hb]
      exact ih h

theorem lookup_MarkCorrupt_self (db : FileLog) (path : String) (now : Nat)
    (r : FileRecord) (h : db.lookup path = some r) :
    (MarkCorrupt db path now).lookup path =
      some { r with status := StatusCorrupt, lastAttemptAt := now } := by
  induction db with
  | nil => simp [List.lookup] at h
  | cons pr rest ih =>
    obtain ⟨p, q⟩ := pr
    by_cases hp : p = path
    · subst hp
      simp only [List.lookup, beq_self_eq_true, Option.some.injEq] at h
      simp [MarkCorrupt, List.lookup, h]
    · have hb : (path == p) = false := beq_eq_false_iff_ne.mpr (Ne.symm hp)
      simp only [List.lookup, hb] at h
      simp only [MarkCorrupt, if_neg hp, List.lookup, hb]
      exact ih h

theorem lookup_IncrementError_absent (db : FileLog) (path : String) (now : Nat)
    (h : db.lookup path = none) :
    (IncrementError db path now).lookup path = none := by
  induction db with
  | nil => simp [IncrementError]
  | cons pr rest ih =>
    obtain ⟨p, q⟩ := pr
    by_cases hp : p = path
    · subst hp
      simp [List.lookup] at h
    · have hb : (path == p) = false := beq_eq_false_iff_ne.mpr (Ne.symm hp)
      simp only [List.lookup, hb] at h
      simp only [IncrementError, if_neg hp, List.lookup, hb]
      exact ih h

theorem lookup_MarkCorrupt_absent (db : FileLog) (path : String) (now : Nat)
    (h : db.lookup path = none) :
    (MarkCorrupt db path now).lookup path = none := by
  induction db with
  | nil => simp [MarkCorrupt]
  | cons pr rest ih =>
    obtain ⟨p, q⟩ := pr
    by_cases hp : p = path
    · subst hp
      simp [List.lookup] at h
    · have hb : (path == p) = false := beq_eq_false_iff_ne.mpr (Ne.symm hp)
      simp only [List.lookup, hb] at h
      simp only [MarkCorrupt, if_neg hp, List.lookup, hb]
      exact ih h

/-- C8: from any prior File-Log state, in particular after any number of
increment_error calls on P, update_status(P, VERIFIED, h, m, s) followed by
get_record(P) returns (VERIFIED, m, h, 0): the upsert resets error_count
to 0. -/
theorem update_status_then_get_record (db : FileLog) (p h : String)
    (m s : Int) (now now2 : Nat) (n : Nat) :
    GetFileRecord
      (UpdateFileStatus (IncrementErrorN db p now2 n) p StatusVerified h m s now) p =
      (StatusVerified, m, h, 0) := by
  obtain ⟨tid, htid⟩ :=
    lookup_UpdateFileStatus_self (IncrementErrorN db p now2 n) p StatusVerified h m s now
  simp [GetFileRecord, htid]

/-! ## Uploader (package api, UploadFile) -/

/-- Outcome of one POST to the upload endpoint as the code observes it:
the resty transport error and the HTTP status code. -/
structure UAttempt where
  transportErr : Bool
  status : Int
deriving Repr, DecidableEq

/-- Success test of one attempt, exactly the condition
err == nil AND 200 <= StatusCode AND StatusCode < 300 of UploadFile. -/
def uAttemptOk (a : UAttempt) : Bool :=
  !a.transportErr && decide (200 ≤ a.status) && decide (a.status < 300)

/-- Environment of one UploadFile invocation: whether os.Open succeeds,
whether the io.Copy into the hasher succeeds, the hex SHA-256 obtained when
it does, the outcome of the i-th POST, and whether the shutdown context is
cancelled during the 2-second back-off wait that follows the i-th failed
attempt. -/
structure UploadEnv where
  openOk : Bool
  hashOk : Bool
  localHash : String
  att : Nat → UAttempt
  cancelDuringWait : Nat → Bool

/-- Observable step of UploadFile: a POST, a completed 2-second back-off
wait, the onSuccess callback with the computed hash and the mod-time that
was passed in, or the onError callback. -/
inductive UploadEvent where
  | post (i : Nat)
  | wait (secs : Nat)
  | success (hash : String) (modTime : Int)
  | failure
deriving Repr, DecidableEq

/-- Retry loop of UploadFile: for i := 0; i < 3; i++ { POST; on success
invoke onSuccess and return; otherwise wait 2 seconds unless the context
is cancelled (then return with no callback) }.  After the loop, invoke
onError.  The fuel argument is the number of remaining iterations. -/
def uploadAttempts (env : UploadEnv) (modTime : Int) : Nat → Nat → List UploadEvent
  | _, 0 => [UploadEvent.failure]
  | i, fuel + 1 =>
    UploadEvent.post i ::
      (if uAttemptOk (env.att i) then [UploadEvent.success env.localHash modTime]
       else if env.cancelDuringWait i then []
       else UploadEvent.wait 2 :: uploadAttempts env modTime (i + 1) fuel)

/-- api.UploadFile: open the file and hash it (returning silently, with no
callback, if either fails), then run up to 3 POST attempts. -/
def UploadFile (env : UploadEnv) (modTime : Int) : List UploadEvent :=
  if env.openOk then
    if env.hashOk then uploadAttempts env modTime 0 3 else []
  else []

/-- Subsequence of events that invoke one of the two outcome callbacks. -/
def callbacks : List UploadEvent → List UploadEvent
  | [] => []
  | UploadEvent.post _ :: rest => callbacks rest
  | UploadEvent.wait _ :: rest => callbacks rest
  | UploadEvent.success h m :: rest => UploadEvent.success h m :: callbacks rest
  | UploadEvent.failure :: rest => UploadEvent.failure :: callbacks rest

/-- Number of POSTs in an uploader trace. -/
def postCount : List UploadEvent → Nat
  | [] => 0
  | UploadEvent.post _ :: rest => postCount rest + 1
  | _ :: rest => postCount rest

/-! ## Worker (package core: moveToDone and handleUpload) -/

/-- Filesystem effects and File-Log writes a worker cycle can perform. -/
inductive WorkerEffect where
  | mkdirAll (dir : String)
  | statDest (p : String)
  | rename (src dst : String)
  | post (i : Nat)
  | wait (secs : Nat)
  | dbUpdate (path status hash : String) (modTime size : Int)
  | dbInc (path : String)
deriving Repr, DecidableEq

def WorkerEffect.isDb : WorkerEffect → Bool
  | WorkerEffect.dbUpdate _ _ _ _ _ => true
  | WorkerEffect.dbInc _ => true
  | _ => false

def WorkerEffect.isRename : WorkerEffect → Bool
  | WorkerEffect.rename _ _ => true
  | _ => false

def WorkerEffect.isPost : WorkerEffect → Bool
  | WorkerEffect.post _ => true
  | _ => false

/-- Interpretation of the File-Log writes of an effect list over the
store; filesystem effects leave the store untouched. -/
def runEffects (now : Nat) : FileLog → List WorkerEffect → FileLog
  | db, [] => db
  | db, WorkerEffect.dbUpdate p s h m sz :: rest =>
    runEffects now (UpdateFileStatus db p s h m sz now) rest
  | db, WorkerEffect.dbInc p :: rest =>
    runEffects now (IncrementError db p now) rest
  | db, _ :: rest => runEffects now db rest

/-- Filesystem outcomes moveToDone depends on: whether the collision probe
os.Stat(dest) finds an existing file, and whether os.Rename succeeds. -/
structure MoveEnv where
  destExists : Bool
  renameOk : Bool
deriving Repr, DecidableEq

/-- core.moveToDone: MkdirAll of the .done sibling, the collision stat,
the timestamped fallback name when the destination exists, then the
rename.  The returned boolean is whether the file actually moved; on
failure the code only logs and leaves the file in place. -/
def moveToDone (dir base : String) (nowSec : Int) (env : MoveEnv) :
    List WorkerEffect × Bool :=
  let doneDir := dir ++ "/.done"
  let dest0 := doneDir ++ "/" ++ base
  let dest :=
    if env.destExists then doneDir ++ "/" ++ toString nowSec ++ "_" ++ base
    else dest0
  ([WorkerEffect.mkdirAll doneDir, WorkerEffect.statDest dest0,
    WorkerEffect.rename (dir ++ "/" ++ base) dest], env.renameOk)

/-- One observation made by an iteration of the stability loop:
the loop-top deadline check fired, the shutdown context fired inside the
select, os.Stat failed, or a stat succeeded with the given size together
with the result of the read-write lock-probe open. -/
inductive Probe where
  | timeoutExceeded
  | cancelled
  | statFail
  | observed (size : Int) (openOk : Bool)
deriving Repr, DecidableEq

/-- Result of one iteration of the stability loop body on one probe. -/
inductive StabStep where
  | abortTimeout
  | abortCancel
  | abortStat
  | next (lastSize : Int) (stableCount : Nat)
deriving Repr, DecidableEq

/-- Body of one stability-loop iteration of core.handleUpload: timeout and
cancellation abort; a failed stat aborts; a changed size resets the
counter and records the new size; a failed lock probe resets the counter;
otherwise the counter is incremented. -/
def stabIter (lastSize : Int) (stableCount : Nat) : Probe → StabStep
  | Probe.timeoutExceeded => StabStep.abortTimeout
  | Probe.cancelled => StabStep.abortCancel
  | Probe.statFail => StabStep.abortStat
  | Probe.observed sz openOk =>
    if sz != lastSize then StabStep.next sz 0
    else if !openOk then StabStep.next lastSize 0
    else StabStep.next lastSize (stableCount + 1)

/-- Overall result of the stability loop; starved means the supplied probe
sequence ended while the loop was still running (the model's finite window
on an unbounded loop). -/
inductive StabResult where
  | ready
  | timeout
  | cancelled
  | statAborted
  | starved
deriving Repr, DecidableEq

/-- for stableCount < threshold { ... } over a given sequence of probes. -/
def stabilityLoop (threshold : Nat) : Int → Nat → List Probe → StabResult
  | _, count, [] =>
    if threshold ≤ count then StabResult.ready else StabResult.starved
  | lastSize, count, p :: rest =>
    if threshold ≤ count then StabResult.ready
    else
      match stabIter lastSize count p with
      | StabStep.abortTimeout => StabResult.timeout
      | StabStep.abortCancel => StabResult.cancelled
      | StabStep.abortStat => StabResult.statAborted
      | StabStep.next ls c => stabilityLoop threshold ls c rest

/-- threshold := remote.StabilityThreshold; if threshold <= 0 {threshold = 2}. -/
def normThreshold (t : Nat) : Nat := if t = 0 then 2 else t

/-- Translation of the uploader trace through the two callbacks that
core.handleUpload installs: onSuccess writes the VERIFIED record with
file_size 0 and then calls moveToDone; onError calls db.IncrementError. -/
def workerEffectsOf (dir base : String) (nowSec : Int) (menv : MoveEnv) :
    List UploadEvent → List WorkerEffect
  | [] => []
  | UploadEvent.post i :: rest =>
    WorkerEffect.post i :: workerEffectsOf dir base nowSec menv rest
  | UploadEvent.wait s :: rest =>
    WorkerEffect.wait s :: workerEffectsOf dir base nowSec menv rest
  | UploadEvent.success h m :: rest =>
    WorkerEffect.dbUpdate (dir ++ "/" ++ base) StatusVerified h m 0 ::
      ((moveToDone dir base nowSec menv).1 ++ workerEffectsOf dir base nowSec menv rest)
  | UploadEvent.failure :: rest =>
    WorkerEffect.dbInc (dir ++ "/" ++ base) :: workerEffectsOf dir base nowSec menv rest

/-- Result of the initial os.Stat of the worker. -/
structure StatInfo where
  size : Int
  modTimeNs : Int
deriving Repr, DecidableEq

/-- Environment of one worker cycle. -/
structure WorkerEnv where
  stat0 : Option StatInfo
  probes : List Probe
  upload : UploadEnv
  nowSec : Int
  move : MoveEnv

/-- core.handleUpload: initial stat (missing file aborts), File-Log
consultation (error_count > 10 aborts; status UPLOADED or VERIFIED with
matching mod_time goes straight to moveToDone), the stability loop, and
finally api.UploadFile with the onSuccess/onError callbacks. -/
def handleUpload (db : FileLog) (threshold : Nat) (dir base : String)
    (env : WorkerEnv) : List WorkerEffect :=
  match env.stat0 with
  | none => []
  | some info =>
    let path := dir ++ "/" ++ base
    match GetFileRecord db path with
    | (status, dbModTime, _, errorCount) =>
      if 10 < errorCount then []
      else if (status == StatusUploaded || status == StatusVerified) &&
              dbModTime == info.modTimeNs then
        (moveToDone dir base env.nowSec env.move).1
      else
        match stabilityLoop (normThreshold threshold) info.size 0 env.probes with
        | StabResult.ready =>
          workerEffectsOf dir base env.nowSec env.move
            (UploadFile env.upload info.modTimeNs)
        | _ => []

/-! ## Legacy uploader variant (package cmd, uploadFile)

This variant carries the integrity-handshake block: on a 2xx response it
json.Unmarshals the body and, when a string field sha256 is present,
compares it with the locally computed hash. -/

/-- How json.Unmarshal sees the response body: not a JSON object, a JSON
object without a string sha256 field, or one with sha256 equal to h. -/
inductive BodyParse where
  | notJson
  | jsonNoSha
  | jsonSha (h : String)
deriving Repr, DecidableEq

/-- One POST outcome for the legacy variant, body included. -/
structure LAttempt where
  transportErr : Bool
  status : Int
  body : BodyParse
deriving Repr, DecidableEq

def lAttemptOk (a : LAttempt) : Bool :=
  !a.transportErr && decide (200 ≤ a.status) && decide (a.status < 300)

/-- Database and filesystem actions of the legacy uploadFile after the
hash was computed. -/
inductive LegacyAction where
  | updateStatus (status hash : String)
  | corrupt
  | incErr
  | move
deriving Repr, DecidableEq

/-- Handling of a 2xx response body in the legacy uploadFile: an
unparseable body writes nothing and proceeds to the move; a JSON body
without sha256 upserts an UPLOADED record and proceeds to the move; a
matching sha256 upserts a VERIFIED record and proceeds to the move; a
mismatching sha256 runs markCorrupt then incrementError and returns
without moving. -/
def handle2xxBody (localHash : String) : BodyParse → List LegacyAction
  | BodyParse.notJson => [LegacyAction.move]
  | BodyParse.jsonNoSha =>
    [LegacyAction.updateStatus StatusUploaded localHash, LegacyAction.move]
  | BodyParse.jsonSha h =>
    if h = localHash then
      [LegacyAction.updateStatus StatusVerified localHash, LegacyAction.move]
    else [LegacyAction.corrupt, LegacyAction.incErr]

/-- Retry loop of the legacy uploadFile (maxRetries = 3, unconditional
2-second sleep between attempts).  Returns the number of POSTs made and
the actions performed; all three attempts failing ends in incrementError. -/
def uploadFileLoop (localHash : String) (att : Nat → LAttempt) :
    Nat → Nat → Nat × List LegacyAction
  | _, 0 => (0, [LegacyAction.incErr])
  | i, fuel + 1 =>
    if lAttemptOk (att i) then (1, handle2xxBody localHash (att i).body)
    else
      match uploadFileLoop localHash att (i + 1) fuel with
      | (n, acts) => (n + 1, acts)

/-- cmd.uploadFile from the retry loop on, given the locally computed
hash. -/
def uploadFile (localHash : String) (att : Nat → LAttempt) :
    Nat × List LegacyAction :=
  uploadFileLoop localHash att 0 3

/-- Interpretation of the legacy actions over the File-Log; the legacy
updateFileStatus call sites pass size 0.  The boolean accumulates whether
a move of the file into .done was attempted. -/
def runLegacyActions (path : String) (modTime : Int) (now : Nat) :
    FileLog → Bool → List LegacyAction → FileLog × Bool
  | db, moved, [] => (db, moved)
  | db, moved, LegacyAction.updateStatus s h :: rest =>
    runLegacyActions path modTime now (UpdateFileStatus db path s h modTime 0 now) moved rest
  | db, moved, LegacyAction.corrupt :: rest =>
    runLegacyActions path modTime now (MarkCorrupt db path now) moved rest
  | db, moved, LegacyAction.incErr :: rest =>
    runLegacyActions path modTime now (IncrementError db path now) moved rest
  | db, _, LegacyAction.move :: rest =>
    runLegacyActions path modTime now db true rest

/-! ## Orchestrator (core.WatchRemote)

The orchestrator goroutine owns pendingStates and activeProcessing and
consumes two channels: events from the sources and control messages
(START:path from settling timers, FINISH:path from workers).  Timers armed
with time.AfterFunc are modelled by identifiers: arming adds the id to the
armed list, Stop removes it, and a fire (which can happen at any moment
after arming, the settling delay having elapsed) removes it and appends
START to the control queue.  Dispatched workers wait on the counting
semaphore, process, and on completion release the slot and append FINISH. -/

/-- In-memory per-path settling state of the orchestrator (core.fileState);
the timer field holds the identifier of the currently armed timer. -/
structure FState where
  lastSize : Int
  lastMod : Int
  timer : Nat
deriving Repr, DecidableEq

/-- Control messages flowing through doneChan. -/
inductive Ctl where
  | start (path : String)
  | finish (path : String)
deriving Repr, DecidableEq

/-- Phase of a dispatched worker goroutine: blocked on the semaphore, or
holding a slot and running handleUpload. -/
inductive WPhase where
  | waiting
  | processing
deriving Repr, DecidableEq

/-- State of one WatchRemote pipeline. -/
structure Orch where
  pending : List (String × FState)
  active : List String
  armed : List (Nat × String)
  ctlQueue : List Ctl
  workers : List (String × WPhase)
  semAvail : Nat
  nextTimer : Nat
deriving Repr, DecidableEq

/-- Scheduler choices: the orchestrator receives an event, an armed timer
fires, the orchestrator receives the head control message, a waiting
worker acquires a semaphore slot, a processing worker finishes. -/
inductive OLabel where
  | recvEvent (path : String) (size mod : Int)
  | timerFire (id : Nat)
  | recvCtl
  | acquire (path : String)
  | finishWork (path : String)
deriving Repr, DecidableEq

/-- Store a pending entry, replacing the existing one for the key. -/
def setPending (m : List (String × FState)) (p : String) (fs : FState) :
    List (String × FState) :=
  match m with
  | [] => [(p, fs)]
  | (q, r) :: rest =>
    if q = p then (q, fs) :: rest else (q, r) :: setPending rest p fs

/-- activeProcessing[path] = true on a Go map. -/
def insertActive (l : List String) (p : String) : List String :=
  if l.contains p then l else p :: l

/-- Flip the first waiting worker for the path to processing. -/
def acquireWorker : List (String × WPhase) → String → Option (List (String × WPhase))
  | [], _ => none
  | (q, ph) :: rest, p =>
    if q = p ∧ ph = WPhase.waiting then some ((q, WPhase.processing) :: rest)
    else
      match acquireWorker rest p with
      | some rest2 => some ((q, ph) :: rest2)
      | none => none

/-- Remove the first processing worker for the path. -/
def releaseWorker : List (String × WPhase) → String → Option (List (String × WPhase))
  | [], _ => none
  | (q, ph) :: rest, p =>
    if q = p ∧ ph = WPhase.processing then some rest
    else
      match releaseWorker rest p with
      | some rest2 => some ((q, ph) :: rest2)
      | none => none

/-- One transition of the pipeline; none when the label's precondition
does not hold (the schedule is not enabled). -/
def orchStep (st : Orch) : OLabel → Option Orch
  | OLabel.recvEvent p s m =>
    if st.active.contains p then some st
    else
      match st.pending.lookup p with
      | some fs =>
        if s != fs.lastSize || m != fs.lastMod then
          some { st with
            armed := (st.armed.filter fun t => !(t.1 == fs.timer)) ++
              [(st.nextTimer, p)],
            pending := setPending st.pending p ⟨s, m, st.nextTimer⟩,
            nextTimer := st.nextTimer + 1 }
        else some st
      | none =>
        some { st with
          pending := setPending st.pending p ⟨s, m, st.nextTimer⟩,
          armed := st.armed ++ [(st.nextTimer, p)],
          nextTimer := st.nextTimer + 1 }
  | OLabel.timerFire id =>
    match st.armed.lookup id with
    | some p =>
      some { st with
        armed := st.armed.filter fun t => !(t.1 == id),
        ctlQueue := st.ctlQueue ++ [Ctl.start p] }
    | none => none
  | OLabel.recvCtl =>
    match st.ctlQueue with
    | [] => none
    | Ctl.start p :: rest =>
      some { st with
        ctlQueue := rest,
        pending := st.pending.filter fun pr => !(pr.1 == p),
        active := insertActive st.active p,
        workers := st.workers ++ [(p, WPhase.waiting)] }
    | Ctl.finish p :: rest =>
      some { st with
        ctlQueue := rest,
        active := st.active.filter fun q => !(q == p) }
  | OLabel.acquire p =>
    if st.semAvail = 0 then none
    else
      match acquireWorker st.workers p with
      | some ws => some { st with workers := ws, semAvail := st.semAvail - 1 }
      | none => none
  | OLabel.finishWork p =>
    match releaseWorker st.workers p with
    | some ws =>
      some { st with
        workers := ws,
        semAvail := st.semAvail + 1,
        ctlQueue := st.ctlQueue ++ [Ctl.finish p] }
    | none => none

/-- Run a schedule; none as soon as a label is not enabled. -/
def orchRun (st : Orch) : List OLabel → Option Orch
  | [] => some st
  | l :: rest =>
    match orchStep st l with
    | some st2 => orchRun st2 rest
    | none => none

/-- Number of workers simultaneously inside handleUpload for the path. -/
def processingCount (st : Orch) (p : String) : Nat :=
  (st.workers.filter fun w => w.1 == p && w.2 == WPhase.processing).length

/-- Fresh pipeline with the given concurrency limit. -/
def orchInit (limit : Nat) : Orch :=
  { pending := [], active := [], armed := [], ctlQueue := [], workers := [],
    semAvail := limit, nextTimer := 0 }

/-! ## Claim C1 -/

/-- Schedule exhibiting a double dispatch for one path: the settling timer
fires and its START message is enqueued; before the orchestrator reads it,
an event with changed metadata is served first (both channels are ready
and select chooses the event), which re-arms a second timer on the still
pending entry; the first START then dispatches worker one; the second
timer fires during worker one's stability loop and its START, finding no
guard on activeProcessing, dispatches worker two. -/
def c1Schedule : List OLabel :=
  [OLabel.recvEvent "/w/a.pdf" 1 1,
   OLabel.timerFire 0,
   OLabel.recvEvent "/w/a.pdf" 2 2,
   OLabel.recvCtl,
   OLabel.acquire "/w/a.pdf",
   OLabel.timerFire 1,
   OLabel.recvCtl,
   OLabel.acquire "/w/a.pdf"]

/-- C1: the claim that at most one worker ever processes a path at a time
is violated by the code: the schedule c1Schedule is enabled at every step
from the initial state (orchRun returns some) and ends with two workers
simultaneously processing /w/a.pdf.  A settling-timer fire that is already
enqueued combines with a later metadata-changing event exactly as the
claim says it cannot. -/
theorem two_concurrent_workers_reachable :
    (orchRun (orchInit 5) c1Schedule).map
      (fun st => processingCount st "/w/a.pdf") = some 2 := by decide

/-! ## Claim C7 -/

/-- C7: for a path in Pending (an entry in pendingStates, no entry in
activeProcessing), an event carrying the stored (size, mod) pair leaves
the whole orchestrator state unchanged, in particular the armed settling
timer; an event with a differing pair stops the stored timer, stores the
new pair, and arms a fresh settling timer. -/
theorem pending_event_coalescing (st : Orch) (p : String) (fs : FState)
    (s m : Int)
    (hact : st.active.contains p = false)
    (hpend : st.pending.lookup p = some fs) :
    (s = fs.lastSize ∧ m = fs.lastMod →
      orchStep st (OLabel.recvEvent p s m) = some st) ∧
    (¬(s = fs.lastSize ∧ m = fs.lastMod) →
      orchStep st (OLabel.recvEvent p s m) =
        some { st with
          armed := (st.armed.filter fun t => !(t.1 == fs.timer)) ++
            [(st.nextTimer, p)],
          pending := setPending st.pending p ⟨s, m, st.nextTimer⟩,
          nextTimer := st.nextTimer + 1 }) := by
  have hmem : ¬ p ∈ st.active := by simpa using hact
  constructor
  · rintro ⟨rfl, rfl⟩
    simp [orchStep, hmem, hpend]
  · intro hne
    have hb : (s != fs.lastSize || m != fs.lastMod) = true := by
      rcases Decidable.not_and_iff_or_not.mp hne with h | h <;>
        simp [bne_iff_ne, h]
    simp [orchStep, hmem, hpend, hb]

/-- Concrete Pending state: one pending path with stored pair (1, 1) and
armed timer 0. -/
def orchC7 : Orch :=
  { pending := [("a", ⟨1, 1, 0⟩)], active := [], armed := [(0, "a")],
    ctlQueue := [], workers := [], semAvail := 5, nextTimer := 1 }

theorem pending_event_coalescing_witness :
    orchStep orchC7 (OLabel.recvEvent "a" 1 1) = some orchC7 ∧
    orchStep orchC7 (OLabel.recvEvent "a" 2 1) =
      some { orchC7 with
        armed := (orchC7.armed.filter fun t => !(t.1 == (0 : Nat))) ++
          [(orchC7.nextTimer, "a")],
        pending := setPending orchC7.pending "a" ⟨2, 1, orchC7.nextTimer⟩,
        nextTimer := orchC7.nextTimer + 1 } := by
  constructor
  · exact (pending_event_coalescing orchC7 "a" ⟨1, 1, 0⟩ 1 1 (by decide)
      (by decide)).1 ⟨rfl, rfl⟩
  · exact (pending_event_coalescing orchC7 "a" ⟨1, 1, 0⟩ 2 1 (by decide)
      (by decide)).2 (by simp)

/-! ## Shared lemmas about effect interpretation -/

theorem runEffects_append (now : Nat) (db : FileLog) (l1 l2 : List WorkerEffect) :
    runEffects now db (l1 ++ l2) = runEffects now (runEffects now db l1) l2 := by
  induction l1 generalizing db with
  | nil => rfl
  | cons e rest ih => cases e <;> simp [runEffects, ih]

theorem runEffects_moveToDone (now : Nat) (db : FileLog) (dir base : String)
    (nowSec : Int) (menv : MoveEnv) (rest : List WorkerEffect) :
    runEffects now db ((moveToDone dir base nowSec menv).1 ++ rest) =
      runEffects now db rest := by
  simp [moveToDone, runEffects]

theorem runEffects_no_callbacks (now : Nat) (db : FileLog) (dir base : String)
    (nowSec : Int) (menv : MoveEnv) (t : List UploadEvent)
    (h : callbacks t = []) :
    runEffects now db (workerEffectsOf dir base nowSec menv t) = db := by
  induction t generalizing db with
  | nil => rfl
  | cons e rest ih =>
    cases e with
    | post i =>
      simp only [callbacks] at h
      simpa [workerEffectsOf, runEffects] using ih db h
    | wait s =>
      simp only [callbacks] at h
      simpa [workerEffectsOf, runEffects] using ih db h
    | success hh mm => simp [callbacks] at h
    | failure => simp [callbacks] at h

theorem runEffects_success_callback (now : Nat) (db : FileLog) (dir base : String)
    (nowSec : Int) (menv : MoveEnv) (t : List UploadEvent) (lh : String) (mt : Int)
    (h : callbacks t = [UploadEvent.success lh mt]) :
    runEffects now db (workerEffectsOf dir base nowSec menv t) =
      UpdateFileStatus db (dir ++ "/" ++ base) StatusVerified lh mt 0 now := by
  induction t generalizing db with
  | nil => simp [callbacks] at h
  | cons e rest ih =>
    cases e with
    | post i =>
      simp only [callbacks] at h
      simpa [workerEffectsOf, runEffects] using ih db h
    | wait s =>
      simp only [callbacks] at h
      simpa [workerEffectsOf, runEffects] using ih db h
    | success hh mm =>
      simp only [callbacks, List.cons.injEq, UploadEvent.success.injEq] at h
      obtain ⟨⟨rfl, rfl⟩, hrest⟩ := h
      simp only [workerEffectsOf, runEffects]
      simpa using runEffects_no_callbacks now
        (UpdateFileStatus db (dir ++ "/" ++ base) StatusVerified hh mm 0 now)
        dir base nowSec menv rest hrest
    | failure => simp [callbacks] at h

/-! ## Claim C9 -/

/-- C9: moveToDone performs no File-Log operation at all: its effect list
contains no database write, interpreting it over any store leaves every
record unchanged, and the file moves exactly when the rename succeeds (on
failure the code only logs and the file stays in place). -/
theorem moveToDone_filelog_frame (dir base : String) (nowSec : Int)
    (env : MoveEnv) (db : FileLog) (now : Nat) :
    (moveToDone dir base nowSec env).1.filter WorkerEffect.isDb = [] ∧
    runEffects now db (moveToDone dir base nowSec env).1 = db ∧
    (moveToDone dir base nowSec env).2 = env.renameOk := by
  refine ⟨?_, ?_, rfl⟩ <;> simp [moveToDone, runEffects, WorkerEffect.isDb]

/-! ## Claim C4 -/

/-- C4 counterexample: a failed stat inside the stability loop does not
reset the counter and continue as claimed; the iteration aborts the whole
cycle, and a subsequent healthy probe is never reached. -/
theorem stat_failure_continue_refuted :
    stabIter 10 1 Probe.statFail = StabStep.abortStat ∧
    stabIter 10 1 Probe.statFail ≠ StabStep.next 10 0 ∧
    stabilityLoop 2 10 1 [Probe.statFail, Probe.observed 10 true] =
      StabResult.statAborted := by decide

/-- C4 amended: a stat failure during the stability loop aborts the cycle
for the file (the worker returns); it does not reset-and-continue.  The
abort produces no effects, so in particular error_count is not
incremented. -/
theorem stat_failure_aborts_cycle :
    (∀ (lastSize : Int) (count : Nat),
      stabIter lastSize count Probe.statFail = StabStep.abortStat) ∧
    (∀ (threshold : Nat) (lastSize : Int) (count : Nat) (rest : List Probe),
      count < threshold →
      stabilityLoop threshold lastSize count (Probe.statFail :: rest) =
        StabResult.statAborted) ∧
    (∀ (db : FileLog) (threshold : Nat) (dir base : String) (env : WorkerEnv)
       (info : StatInfo) (status hsh : String) (dbMod : Int) (ec now : Nat),
      env.stat0 = some info →
      GetFileRecord db (dir ++ "/" ++ base) = (status, dbMod, hsh, ec) →
      ec ≤ 10 →
      ((status == StatusUploaded || status == StatusVerified) &&
        dbMod == info.modTimeNs) = false →
      stabilityLoop (normThreshold threshold) info.size 0 env.probes =
        StabResult.statAborted →
      handleUpload db threshold dir base env = [] ∧
      runEffects now db (handleUpload db threshold dir base env) = db) := by
  refine ⟨fun _ _ => rfl, ?_, ?_⟩
  · intro threshold lastSize count rest hlt
    have hn : ¬ threshold ≤ count := by omega
    simp [stabilityLoop, hn, stabIter]
  · intro db threshold dir base env info status hsh dbMod ec now hstat hget hec
      hcond hloop
    have hn : ¬ 10 < ec := by omega
    have h1 : handleUpload db threshold dir base env = [] := by
      simp [handleUpload, hstat, hget, hcond, hloop, hn]
    exact ⟨h1, by simp [h1, runEffects]⟩

/-- Concrete worker environment whose stability loop hits a stat failure
on its second probe. -/
def c4env : WorkerEnv :=
  { stat0 := some ⟨10, 7⟩,
    probes := [Probe.observed 10 true, Probe.statFail],
    upload := ⟨true, true, "abc", fun _ => ⟨false, 200⟩, fun _ => false⟩,
    nowSec := 0, move := ⟨false, true⟩ }

theorem stat_failure_aborts_cycle_witness :
    handleUpload [] 2 "/w" "a.pdf" c4env = [] ∧
    runEffects 5 [] (handleUpload [] 2 "/w" "a.pdf" c4env) = [] :=
  stat_failure_aborts_cycle.2.2 [] 2 "/w" "a.pdf" c4env ⟨10, 7⟩ "" "" 0 0 5
    rfl rfl (by decide) (by decide) (by decide)

/-! ## Claim C5 -/

/-- C5 counterexample: a record with status VERIFIED and matching mod_time
but error_count 11 is caught by the too-many-errors guard, which runs
first: the worker aborts without attempting the Done-Move the claim
promises. -/
def c5db : FileLog :=
  [("/w/a.pdf", { fileHash := "h", modTime := 5, fileSize := 10,
                  status := StatusVerified, lastAttemptAt := 0,
                  tenantId := none, errorCount := 11 })]

def c5env : WorkerEnv :=
  { stat0 := some ⟨10, 5⟩, probes := [],
    upload := ⟨true, true, "h", fun _ => ⟨true, 0⟩, fun _ => false⟩,
    nowSec := 0, move := ⟨false, true⟩ }

theorem already_delivered_requires_error_bound_cex :
    GetFileRecord c5db "/w/a.pdf" = (StatusVerified, 5, "h", 11) ∧
    c5env.stat0 = some ⟨10, 5⟩ ∧
    handleUpload c5db 2 "/w" "a.pdf" c5env = [] := by decide

/-- C5 amended: for a record with status UPLOADED or VERIFIED, stored
mod_time equal to the current on-disk mod_time, and error_count at most 10
(the too-many-errors guard runs first), the worker performs no upload at
all: its effects are exactly the Done-Move attempt, the File-Log is left
unchanged, and no POST occurs. -/
theorem already_delivered_self_heal (db : FileLog) (threshold : Nat)
    (dir base : String) (env : WorkerEnv) (info : StatInfo)
    (status hsh : String) (dbMod : Int) (ec now : Nat)
    (hstat : env.stat0 = some info)
    (hget : GetFileRecord db (dir ++ "/" ++ base) = (status, dbMod, hsh, ec))
    (hec : ec ≤ 10)
    (hst : status = StatusUploaded ∨ status = StatusVerified)
    (hmod : dbMod = info.modTimeNs) :
    handleUpload db threshold dir base env =
      (moveToDone dir base env.nowSec env.move).1 ∧
    runEffects now db (handleUpload db threshold dir base env) = db ∧
    (handleUpload db threshold dir base env).filter WorkerEffect.isPost = [] := by
  have hn : ¬ 10 < ec := by omega
  have hcond : ((status == StatusUploaded || status == StatusVerified) &&
      dbMod == info.modTimeNs) = true := by
    rcases hst with h | h <;> subst h <;> subst hmod <;> simp
  have h1 : handleUpload db threshold dir base env =
      (moveToDone dir base env.nowSec env.move).1 := by
    simp [handleUpload, hstat, hget, hcond, hn]
  refine ⟨h1, ?_, ?_⟩
  · rw [h1]
    have := runEffects_moveToDone now db dir base env.nowSec env.move []
    simpa using this
  · rw [h1]
    simp [moveToDone, WorkerEffect.isPost]

/-- Concrete already-delivered situation: VERIFIED record, matching
mod_time, error_count 2. -/
def c5wdb : FileLog :=
  [("/w/a.pdf", { fileHash := "h", modTime := 5, fileSize := 10,
                  status := StatusVerified, lastAttemptAt := 0,
                  tenantId := none, errorCount := 2 })]

theorem already_delivered_self_heal_witness :
    handleUpload c5wdb 2 "/w" "a.pdf" c5env =
      (moveToDone "/w" "a.pdf" c5env.nowSec c5env.move).1 ∧
    runEffects 9 c5wdb (handleUpload c5wdb 2 "/w" "a.pdf" c5env) = c5wdb ∧
    (handleUpload c5wdb 2 "/w" "a.pdf" c5env).filter WorkerEffect.isPost = [] :=
  already_delivered_self_heal c5wdb 2 "/w" "a.pdf" c5env ⟨10, 5⟩
    StatusVerified "h" 5 2 9 rfl (by decide) (by decide) (Or.inr rfl) rfl

/-! ## Claim C3 -/

/-- Concrete successful cycle: a 10-byte file, two clean stability probes,
first POST returns 200. -/
def c3env : WorkerEnv :=
  { stat0 := some ⟨10, 7⟩,
    probes := [Probe.observed 10 true, Probe.observed 10 true],
    upload := ⟨true, true, "abc", fun _ => ⟨false, 200⟩, fun _ => false⟩,
    nowSec := 99, move := ⟨false, true⟩ }

/-- C3 counterexample: the success path writes the record with file_size
0, not the file's size in bytes at upload time (here 10): onSuccess calls
UpdateFileStatus with a literal 0 size argument. -/
theorem success_filesize_zero_cex :
    c3env.stat0 = some ⟨10, 7⟩ ∧
    ((runEffects 5 [] (handleUpload [] 2 "/w" "a.pdf" c3env)).lookup
      "/w/a.pdf").map FileRecord.fileSize = some 0 ∧
    (0 : Int) ≠ 10 := by decide

/-- C3 amended: a successful upload writes a record with status VERIFIED,
the computed hash, the mod_time captured by the stat taken before hashing,
and error_count 0 — but its file_size field is written as the literal 0,
not the file's size at upload time. -/
theorem verified_record_on_success (db : FileLog) (threshold : Nat)
    (dir base : String) (env : WorkerEnv) (info : StatInfo)
    (status hsh : String) (dbMod : Int) (ec now : Nat)
    (hstat : env.stat0 = some info)
    (hget : GetFileRecord db (dir ++ "/" ++ base) = (status, dbMod, hsh, ec))
    (hec : ec ≤ 10)
    (hcond : ((status == StatusUploaded || status == StatusVerified) &&
      dbMod == info.modTimeNs) = false)
    (hloop : stabilityLoop (normThreshold threshold) info.size 0 env.probes =
      StabResult.ready)
    (hcb : callbacks (UploadFile env.upload info.modTimeNs) =
      [UploadEvent.success env.upload.localHash info.modTimeNs]) :
    ∃ tid,
      (runEffects now db (handleUpload db threshold dir base env)).lookup
        (dir ++ "/" ++ base) =
      some { fileHash := env.upload.localHash, modTime := info.modTimeNs,
             fileSize := 0, status := StatusVerified, lastAttemptAt := now,
             tenantId := tid, errorCount := 0 } := by
  have hn : ¬ 10 < ec := by omega
  have h1 : handleUpload db threshold dir base env =
      workerEffectsOf dir base env.nowSec env.move
        (UploadFile env.upload info.modTimeNs) := by
    simp [handleUpload, hstat, hget, hcond, hloop, hn]
  rw [h1, runEffects_success_callback now db dir base env.nowSec env.move _ _ _ hcb]
  exact lookup_UpdateFileStatus_self db (dir ++ "/" ++ base) StatusVerified
    env.upload.localHash info.modTimeNs 0 now

theorem verified_record_on_success_witness :
    ∃ tid,
      (runEffects 5 [] (handleUpload [] 2 "/w" "a.pdf" c3env)).lookup
        "/w/a.pdf" =
      some { fileHash := "abc", modTime := 7, fileSize := 0,
             status := StatusVerified, lastAttemptAt := 5, tenantId := tid,
             errorCount := 0 } :=
  verified_record_on_success [] 2 "/w" "a.pdf" c3env ⟨10, 7⟩ "" "" 0 0 5
    rfl rfl (by decide) (by decide) (by decide) (by decide)

/-! ## Claim C6 -/

/-- Uploader environment in which every POST has a transport error and the
shutdown context fires during the back-off wait that follows the third
attempt. -/
def c6envU : UploadEnv :=
  ⟨true, true, "abc", fun _ => ⟨true, 0⟩, fun i => i == 2⟩

def c6db : FileLog :=
  [("/w/a.pdf", { fileHash := "old", modTime := 5, fileSize := 10,
                  status := StatusFailed, lastAttemptAt := 0, tenantId := none,
                  errorCount := 3 })]

/-- C6 counterexample: all three attempts fail (the trace shows the three
POSTs and no success), yet because cancellation arrives during the wait
after the third attempt, UploadFile returns without invoking onError and
error_count stays at 3. -/
theorem all_attempts_fail_cancel_no_increment_cex :
    UploadFile c6envU 7 = [UploadEvent.post 0, UploadEvent.wait 2,
      UploadEvent.post 1, UploadEvent.wait 2, UploadEvent.post 2] ∧
    GetFileRecord (runEffects 9 c6db (workerEffectsOf "/w" "a.pdf" 0
      ⟨false, true⟩ (UploadFile c6envU 7))) "/w/a.pdf" =
      (StatusFailed, 5, "old", 3) := by decide

/-- C6 amended: the uploader makes at most 3 POSTs; an attempt succeeds
exactly when there is no transport error and the status is in [200, 300);
when all three attempts fail and shutdown cancellation does not interrupt
any of the 2-second back-off waits (the code also waits after the final
attempt), the trace is exactly three POSTs interleaved with 2-second waits
followed by the onError callback, which increments the existing record's
error_count by one; no rename effect occurs, so the file is not moved.
When cancellation does interrupt a back-off wait, no callback runs and the
File-Log is unchanged. -/
theorem upload_retry_discipline :
    (∀ (env : UploadEnv) (mt : Int), postCount (UploadFile env mt) ≤ 3) ∧
    (∀ a : UAttempt, uAttemptOk a = true ↔
      a.transportErr = false ∧ 200 ≤ a.status ∧ a.status < 300) ∧
    (∀ (env : UploadEnv) (mt : Int),
      env.openOk = true → env.hashOk = true →
      (∀ j, j < 3 → uAttemptOk (env.att j) = false) →
      (∀ j, j < 3 → env.cancelDuringWait j = false) →
      UploadFile env mt = [UploadEvent.post 0, UploadEvent.wait 2,
        UploadEvent.post 1, UploadEvent.wait 2, UploadEvent.post 2,
        UploadEvent.wait 2, UploadEvent.failure]) ∧
    (∀ (dir base : String) (nowSec : Int) (menv : MoveEnv) (db : FileLog)
       (r : FileRecord) (now : Nat) (env : UploadEnv) (mt : Int),
      db.lookup (dir ++ "/" ++ base) = some r →
      env.openOk = true → env.hashOk = true →
      (∀ j, j < 3 → uAttemptOk (env.att j) = false) →
      (∀ j, j < 3 → env.cancelDuringWait j = false) →
      (runEffects now db (workerEffectsOf dir base nowSec menv
        (UploadFile env mt))).lookup (dir ++ "/" ++ base) =
        some { r with errorCount := r.errorCount + 1, lastAttemptAt := now } ∧
      (workerEffectsOf dir base nowSec menv (UploadFile env mt)).filter
        WorkerEffect.isRename = []) := by
  have hbound : ∀ (env : UploadEnv) (mt : Int) (fuel i : Nat),
      postCount (uploadAttempts env mt i fuel) ≤ fuel := by
    intro env mt fuel
    induction fuel with
    | zero => intro i; simp [uploadAttempts, postCount]
    | succ n ih =>
      intro i
      by_cases h1 : uAttemptOk (env.att i) = true
      · simp [uploadAttempts, h1, postCount]
      · rw [Bool.not_eq_true] at h1
        by_cases h2 : env.cancelDuringWait i = true
        · simp [uploadAttempts, h1, h2, postCount]
        · rw [Bool.not_eq_true] at h2
          simp only [uploadAttempts, h1, h2, postCount, Bool.false_eq_true,
            if_false]
          have := ih (i + 1)
          omega
  have htrace : ∀ (env : UploadEnv) (mt : Int),
      env.openOk = true → env.hashOk = true →
      (∀ j, j < 3 → uAttemptOk (env.att j) = false) →
      (∀ j, j < 3 → env.cancelDuringWait j = false) →
      UploadFile env mt = [UploadEvent.post 0, UploadEvent.wait 2,
        UploadEvent.post 1, UploadEvent.wait 2, UploadEvent.post 2,
        UploadEvent.wait 2, UploadEvent.failure] := by
    intro env mt ho hh hatt hcan
    simp [UploadFile, ho, hh, uploadAttempts,
      hatt 0 (by omega), hatt 1 (by omega), hatt 2 (by omega),
      hcan 0 (by omega), hcan 1 (by omega), hcan 2 (by omega)]
  refine ⟨?_, ?_, htrace, ?_⟩
  · intro env mt
    by_cases ho : env.openOk = true
    · by_cases hh : env.hashOk = true
      · simp only [UploadFile, ho, hh, if_true]
        exact hbound env mt 3 0
      · rw [Bool.not_eq_true] at hh
        simp [UploadFile, ho, hh, postCount]
    · rw [Bool.not_eq_true] at ho
      simp [UploadFile, ho, postCount]
  · intro a
    simp only [uAttemptOk, Bool.and_eq_true, Bool.not_eq_eq_eq_not,
      Bool.not_true, decide_eq_true_eq]
    constructor
    · rintro ⟨⟨h1, h2⟩, h3⟩
      exact ⟨by simpa using h1, h2, h3⟩
    · rintro ⟨h1, h2, h3⟩
      exact ⟨⟨by simpa using h1, h2⟩, h3⟩
  · intro dir base nowSec menv db r now env mt hlook ho hh hatt hcan
    rw [htrace env mt ho hh hatt hcan]
    constructor
    · simp only [workerEffectsOf, runEffects]
      exact lookup_IncrementError_self db (dir ++ "/" ++ base) now r hlook
    · simp [workerEffectsOf, WorkerEffect.isRename]

/-- Uploader environment with three transport errors and no cancellation. -/
def c6wEnv : UploadEnv :=
  ⟨true, true, "abc", fun _ => ⟨true, 0⟩, fun _ => false⟩

theorem upload_retry_discipline_witness :
    UploadFile c6wEnv 7 = [UploadEvent.post 0, UploadEvent.wait 2,
      UploadEvent.post 1, UploadEvent.wait 2, UploadEvent.post 2,
      UploadEvent.wait 2, UploadEvent.failure] ∧
    (runEffects 9 c6db (workerEffectsOf "/w" "a.pdf" 0 ⟨false, true⟩
      (UploadFile c6wEnv 7))).lookup "/w/a.pdf" =
      some { fileHash := "old", modTime := 5, fileSize := 10,
             status := StatusFailed, lastAttemptAt := 9, tenantId := none,
             errorCount := 4 } :=
  ⟨upload_retry_discipline.2.2.1 c6wEnv 7 rfl rfl (fun _ _ => rfl)
      (fun _ _ => rfl),
   (upload_retry_discipline.2.2.2 "/w" "a.pdf" 0 ⟨false, true⟩ c6db
      { fileHash := "old", modTime := 5, fileSize := 10,
        status := StatusFailed, lastAttemptAt := 0, tenantId := none,
        errorCount := 3 } 9
      c6wEnv 7 (by decide) rfl rfl (fun _ _ => rfl) (fun _ _ => rfl)).1⟩

/-! ## Claim C10 -/

/-- C10: at most one outcome callback is ever invoked, and at most once; a
local open or hash failure produces no events at all; cancellation during
a back-off wait (all attempts so far having failed) ends the run with no
callback; and a run with no callback leaves the File-Log — in particular
error_count — unchanged. -/
theorem callbacks_at_most_once :
    (∀ (env : UploadEnv) (mt : Int),
      (callbacks (UploadFile env mt)).length ≤ 1) ∧
    (∀ (env : UploadEnv) (mt : Int),
      env.openOk = false ∨ env.hashOk = false → UploadFile env mt = []) ∧
    (∀ (env : UploadEnv) (mt : Int) (i : Nat), i < 3 →
      (∀ j, j ≤ i → uAttemptOk (env.att j) = false) →
      (∀ j, j < i → env.cancelDuringWait j = false) →
      env.cancelDuringWait i = true →
      callbacks (UploadFile env mt) = []) ∧
    (∀ (dir base : String) (nowSec : Int) (menv : MoveEnv) (now : Nat)
       (db : FileLog) (env : UploadEnv) (mt : Int),
      callbacks (UploadFile env mt) = [] →
      runEffects now db (workerEffectsOf dir base nowSec menv
        (UploadFile env mt)) = db) := by
  have hlen : ∀ (env : UploadEnv) (mt : Int) (fuel i : Nat),
      (callbacks (uploadAttempts env mt i fuel)).length ≤ 1 := by
    intro env mt fuel
    induction fuel with
    | zero => intro i; simp [uploadAttempts, callbacks]
    | succ n ih =>
      intro i
      by_cases h1 : uAttemptOk (env.att i) = true
      · simp [uploadAttempts, h1, callbacks]
      · rw [Bool.not_eq_true] at h1
        by_cases h2 : env.cancelDuringWait i = true
        · simp [uploadAttempts, h1, h2, callbacks]
        · rw [Bool.not_eq_true] at h2
          simp only [uploadAttempts, h1, h2, callbacks, Bool.false_eq_true,
            if_false]
          exact ih (i + 1)
  refine ⟨?_, ?_, ?_, ?_⟩
  · intro env mt
    by_cases ho : env.openOk = true
    · by_cases hh : env.hashOk = true
      · simp only [UploadFile, ho, hh, if_true]
        exact hlen env mt 3 0
      · rw [Bool.not_eq_true] at hh
        simp [UploadFile, ho, hh, callbacks]
    · rw [Bool.not_eq_true] at ho
      simp [UploadFile, ho, callbacks]
  · intro env mt h
    rcases h with h | h <;> simp [UploadFile, h]
  · intro env mt i hi hatt hcan hc
    have ho : env.openOk = true ∨ env.openOk = false := by
      cases env.openOk <;> simp
    rcases ho with ho | ho
    · have hh : env.hashOk = true ∨ env.hashOk = false := by
        cases env.hashOk <;> simp
      rcases hh with hh | hh
      · match i, hi with
        | 0, _ =>
          simp [UploadFile, ho, hh, uploadAttempts, hatt 0 (by omega), hc,
            callbacks]
        | 1, _ =>
          simp [UploadFile, ho, hh, uploadAttempts, hatt 0 (by omega),
            hatt 1 (by omega), hcan 0 (by omega), hc, callbacks]
        | 2, _ =>
          simp [UploadFile, ho, hh, uploadAttempts, hatt 0 (by omega),
            hatt 1 (by omega), hatt 2 (by omega), hcan 0 (by omega),
            hcan 1 (by omega), hc, callbacks]
      · simp [UploadFile, ho, hh, callbacks]
    · simp [UploadFile, ho, callbacks]
  · intro dir base nowSec menv now db env mt h
    exact runEffects_no_callbacks now db dir base nowSec menv _ h

/-- Uploader environment whose open fails. -/
def c10openFail : UploadEnv :=
  ⟨false, true, "abc", fun _ => ⟨false, 200⟩, fun _ => false⟩

/-- Uploader environment cancelled during the first back-off wait. -/
def c10cancel : UploadEnv :=
  ⟨true, true, "abc", fun _ => ⟨true, 0⟩, fun _ => true⟩

theorem callbacks_at_most_once_witness :
    UploadFile c10openFail 7 = [] ∧
    callbacks (UploadFile c10cancel 7) = [] ∧
    runEffects 9 c6db (workerEffectsOf "/w" "a.pdf" 0 ⟨false, true⟩
      (UploadFile c10cancel 7)) = c6db :=
  ⟨callbacks_at_most_once.2.1 c10openFail 7 (Or.inl rfl),
   callbacks_at_most_once.2.2.1 c10cancel 7 0 (by omega) (fun _ _ => rfl)
     (fun j hj => absurd hj (by omega)) rfl,
   callbacks_at_most_once.2.2.2 "/w" "a.pdf" 0 ⟨false, true⟩ 9 c6db
     c10cancel 7
     (callbacks_at_most_once.2.2.1 c10cancel 7 0 (by omega) (fun _ _ => rfl)
       (fun j hj => absurd hj (by omega)) rfl)⟩

/-! ## Claim C2 -/

/-- Response pattern: first POST returns 2xx with a JSON body whose sha256
field does not match the local hash. -/
def c2att : Nat → LAttempt := fun _ => ⟨false, 200, BodyParse.jsonSha "dead"⟩

/-- C2 counterexample: a 2xx upload with a mismatching server hash on a
path that has no File-Log row yet.  markCorrupt and incrementError are
plain SQL UPDATEs, so both are no-ops: afterwards the File-Log still has
no record for the path — nothing is marked CORRUPT and no error_count is
incremented. -/
theorem integrity_mismatch_no_row_cex :
    uploadFile "abc" c2att =
      (1, [LegacyAction.corrupt, LegacyAction.incErr]) ∧
    runLegacyActions "/w/a.pdf" 7 3 [] false (uploadFile "abc" c2att).2 =
      ([], false) ∧
    GetFileRecord [] "/w/a.pdf" = ("", 0, "", 0) := by decide

/-- C2 amended: on a 2xx response whose JSON body carries a sha256 string
different from the local hash, the legacy uploader makes no further POST,
runs markCorrupt then incrementError, and does not move the file; when a
File-Log row for the path exists this marks it CORRUPT and increments its
error_count, and when no row exists both updates are no-ops and no record
appears.  When the sha256 field is absent the upload is treated as a
success: an UPLOADED record is upserted and the move is attempted. -/
theorem integrity_mismatch_discipline :
    (∀ (localHash remoteHash : String) (att : Nat → LAttempt) (db : FileLog)
       (p : String) (mt : Int) (now : Nat) (r : FileRecord),
      lAttemptOk (att 0) = true →
      (att 0).body = BodyParse.jsonSha remoteHash →
      remoteHash ≠ localHash →
      db.lookup p = some r →
      uploadFile localHash att =
        (1, [LegacyAction.corrupt, LegacyAction.incErr]) ∧
      GetFileRecord
        (runLegacyActions p mt now db false (uploadFile localHash att).2).1 p =
        (StatusCorrupt, r.modTime, r.fileHash, r.errorCount + 1) ∧
      (runLegacyActions p mt now db false (uploadFile localHash att).2).2 =
        false) ∧
    (∀ (localHash remoteHash : String) (att : Nat → LAttempt) (db : FileLog)
       (p : String) (mt : Int) (now : Nat),
      lAttemptOk (att 0) = true →
      (att 0).body = BodyParse.jsonSha remoteHash →
      remoteHash ≠ localHash →
      db.lookup p = none →
      (runLegacyActions p mt now db false (uploadFile localHash att).2).1.lookup
        p = none) ∧
    (∀ (localHash : String) (att : Nat → LAttempt) (db : FileLog)
       (p : String) (mt : Int) (now : Nat),
      lAttemptOk (att 0) = true →
      (att 0).body = BodyParse.jsonNoSha →
      uploadFile localHash att =
        (1, [LegacyAction.updateStatus StatusUploaded localHash,
             LegacyAction.move]) ∧
      GetFileRecord
        (runLegacyActions p mt now db false (uploadFile localHash att).2).1 p =
        (StatusUploaded, mt, localHash, 0) ∧
      (runLegacyActions p mt now db false (uploadFile localHash att).2).2 =
        true) := by
  have hrun : ∀ (localHash remoteHash : String) (att : Nat → LAttempt),
      lAttemptOk (att 0) = true →
      (att 0).body = BodyParse.jsonSha remoteHash →
      remoteHash ≠ localHash →
      uploadFile localHash att =
        (1, [LegacyAction.corrupt, LegacyAction.incErr]) := by
    intro localHash remoteHash att hok hbody hne
    simp [uploadFile, uploadFileLoop, hok, hbody, handle2xxBody, hne]
  refine ⟨?_, ?_, ?_⟩
  · intro localHash remoteHash att db p mt now r hok hbody hne hlook
    have h1 := hrun localHash remoteHash att hok hbody hne
    have hmc := lookup_MarkCorrupt_self db p now r hlook
    have hie := lookup_IncrementError_self (MarkCorrupt db p now) p now _ hmc
    refine ⟨h1, ?_, ?_⟩
    · rw [h1]
      simp only [runLegacyActions]
      simp [GetFileRecord, hie]
    · rw [h1]
      simp [runLegacyActions]
  · intro localHash remoteHash att db p mt now hok hbody hne hlook
    have h1 := hrun localHash remoteHash att hok hbody hne
    rw [h1]
    simp only [runLegacyActions]
    exact lookup_IncrementError_absent (MarkCorrupt db p now) p now
      (lookup_MarkCorrupt_absent db p now hlook)
  · intro localHash att db p mt now hok hbody
    have h1 : uploadFile localHash att =
        (1, [LegacyAction.updateStatus StatusUploaded localHash,
             LegacyAction.move]) := by
      simp [uploadFile, uploadFileLoop, hok, hbody, handle2xxBody]
    obtain ⟨tid, htid⟩ :=
      lookup_UpdateFileStatus_self db p StatusUploaded localHash mt 0 now
    refine ⟨h1, ?_, ?_⟩
    · rw [h1]
      simp only [runLegacyActions]
      simp [GetFileRecord, htid]
    · rw [h1]
      simp [runLegacyActions]

/-- File-Log with one VERIFIED row for the path. -/
def c2db : FileLog :=
  [("/w/a.pdf", { fileHash := "h", modTime := 5, fileSize := 10,
                  status := StatusVerified, lastAttemptAt := 0,
                  tenantId := none, errorCount := 0 })]

theorem integrity_mismatch_discipline_witness :
    uploadFile "abc" c2att =
      (1, [LegacyAction.corrupt, LegacyAction.incErr]) ∧
    GetFileRecord
      (runLegacyActions "/w/a.pdf" 7 3 c2db false
        (uploadFile "abc" c2att).2).1 "/w/a.pdf" =
      (StatusCorrupt, 5, "h", 1) ∧
    (runLegacyActions "/w/a.pdf" 7 3 c2db false
      (uploadFile "abc" c2att).2).2 = false :=
  integrity_mismatch_discipline.1 "abc" "dead" c2att c2db "/w/a.pdf" 7 3
    { fileHash := "h", modTime := 5, fileSize := 10, status := StatusVerified,
      lastAttemptAt := 0, tenantId := none, errorCount := 0 }
    rfl rfl (by decide) (by decide)

end Sift
